import Mathlib

/-!
Verification of the `erep` library: a value wrapper `Erep T` carrying an
optional diagnostic trail `Ereport`, with mapping operations `vmap`, `map`,
`emap`, `omap`, plus trail operations `empty`, `new`, `push`, `push_opt`.

The definitions below are a shallow embedding of `src/src/lib.rs`.
Rust's `Vec<Ereport>` is modelled as `List Ereport` (with `Vec::push`
appending at the end), `Option` as `Option`, `Result<U, E>` as
`Except E U`, and `String` as `String`.  The `Debug` formatting used by
`emap` (`format!("{e:?}")`) is modelled by an explicit formatter argument
`fmt : E → String`.
-/

/-- The diagnostic trail: a message plus an ordered sequence of child
trails (`struct Ereport { msg: String, stack: Vec<Ereport> }`). -/
inductive Ereport : Type where
  | mk (msg : String) (stack : List Ereport) : Ereport

/-- Field accessor for `msg`. -/
def Ereport.msg : Ereport → String
  | .mk m _ => m

/-- Field accessor for `stack`. -/
def Ereport.stack : Ereport → List Ereport
  | .mk _ s => s

/-- `Ereport::empty`: the canonical empty trail. -/
def Ereport.empty : Ereport := .mk "" []

/-- `Ereport::new`: a single-message trail with no children. -/
def Ereport.new (msg : String) : Ereport := .mk msg []

/-- `Ereport::push`: append `other` at the end of the children sequence,
keeping the message (`Self { stack, ..self }` after `stack.push(other)`). -/
def Ereport.push (self other : Ereport) : Ereport :=
  .mk self.msg (self.stack ++ [other])

/-- `Ereport::push_opt`: append the child when present, else return the
trail unchanged. -/
def Ereport.push_opt (self : Ereport) (other : Option Ereport) : Ereport :=
  match other with
  | some e => self.push e
  | none => self

/-- The wrapped value: `struct Erep<T> { val: T, rep: Option<Ereport> }`. -/
structure Erep (T : Type) where
  val : T
  rep : Option Ereport

/-- `Erep::unwrap_with_err`: return the raw value and the optional trail. -/
def Erep.unwrap_with_err {T : Type} (self : Erep T) : T × Option Ereport :=
  (self.val, self.rep)

/-- `Erep::vmap`: apply a total function to the value, keep the trail. -/
def Erep.vmap {T U : Type} (self : Erep T) (f : T → U) : Erep U :=
  { val := f self.val, rep := self.rep }

/-- `Erep::map`: apply `f` producing another wrapper, then merge the two
optional trails by folding `push_opt` over `[ro, r]` from `empty`. -/
def Erep.map {T U : Type} (self : Erep T) (f : T → Erep U) : Erep U :=
  let (vo, ro) := self.unwrap_with_err
  let (v, r) := (f vo).unwrap_with_err
  { val := v,
    rep := some (([ro, r] : List (Option Ereport)).foldl Ereport.push_opt Ereport.empty) }

/-- `Erep::emap`: apply a fallible `f : T → Result<U, E>`; on `Ok` keep the
original trail, on `Err` drop it and install a fresh single-message trail
from the override message (when given) or the formatted error. -/
def Erep.emap {T U E : Type} (self : Erep T) (fmt : E → String)
    (f : T → Except E U) (msg : Option String) : Erep (Option U) :=
  let vo := self.unwrap_with_err.1
  let ro := self.unwrap_with_err.2
  match f vo, msg with
  | Except.ok v, _ => { val := some v, rep := ro }
  | Except.error _, some m => { val := none, rep := some (Ereport.new m) }
  | Except.error e, none => { val := none, rep := some (Ereport.new (fmt e)) }

/-- `Erep::omap`: apply `f : T → Option U`; on `Some` keep the original
trail, on `None` drop it and install a fresh single-message trail from the
override message (when given) or the fixed default text. -/
def Erep.omap {T U : Type} (self : Erep T)
    (f : T → Option U) (msg : Option String) : Erep (Option U) :=
  match f self.val, msg with
  | some val, _ => { val := some val, rep := self.rep }
  | none, none => { val := none, rep := some (Ereport.new "Got None, instead of Some") }
  | none, some m => { val := none, rep := some (Ereport.new m) }

/-!
Panic-instrumented variants: each operation is re-expressed inside
`Except String`, where a Rust panic would surface as `Except.error`.
Every primitive the source uses (field access, list append, constructing
a record, string conversion, a total `match`) is non-panicking, so the
bodies never raise; the theorem for C8 proves each variant always
returns `Except.ok` of the plain operation's result.
-/

/-- Panic-instrumented `Ereport::empty`. -/
def Ereport.emptyChecked : Except String Ereport := do
  pure (.mk "" [])

/-- Panic-instrumented `Ereport::new`. -/
def Ereport.newChecked (msg : String) : Except String Ereport := do
  pure (.mk msg [])

/-- Panic-instrumented `Ereport::push`. -/
def Ereport.pushChecked (self : Ereport) (other : Ereport) : Except String Ereport := do
  let s := self.stack
  let s := s ++ [other]
  pure (.mk self.msg s)

/-- Panic-instrumented `Ereport::push_opt`. -/
def Ereport.push_optChecked (self : Ereport) (other : Option Ereport) :
    Except String Ereport := do
  match other with
  | some e => self.pushChecked e
  | none => pure self

/-- Panic-instrumented `Erep::unwrap_with_err`. -/
def Erep.unwrap_with_errChecked {T : Type} (self : Erep T) :
    Except String (T × Option Ereport) := do
  pure (self.val, self.rep)

/-- Panic-instrumented `Erep::vmap`. -/
def Erep.vmapChecked {T U : Type} (self : Erep T) (f : T → U) :
    Except String (Erep U) := do
  let v := f self.val
  pure { val := v, rep := self.rep }

/-- Panic-instrumented `Erep::map`. -/
def Erep.mapChecked {T U : Type} (self : Erep T) (f : T → Erep U) :
    Except String (Erep U) := do
  let p ← self.unwrap_with_errChecked
  let q ← (f p.1).unwrap_with_errChecked
  let merged ← ([p.2, q.2] : List (Option Ereport)).foldlM Ereport.push_optChecked Ereport.empty
  pure { val := q.1, rep := some merged }

/-- Panic-instrumented `Erep::emap`. -/
def Erep.emapChecked {T U E : Type} (self : Erep T) (fmt : E → String)
    (f : T → Except E U) (msg : Option String) : Except String (Erep (Option U)) := do
  let p ← self.unwrap_with_errChecked
  match f p.1, msg with
  | Except.ok v, _ => pure { val := some v, rep := p.2 }
  | Except.error _, some m => do
      let r ← Ereport.newChecked m
      pure { val := none, rep := some r }
  | Except.error e, none => do
      let r ← Ereport.newChecked (fmt e)
      pure { val := none, rep := some r }

/-- Panic-instrumented `Erep::omap`. -/
def Erep.omapChecked {T U : Type} (self : Erep T)
    (f : T → Option U) (msg : Option String) : Except String (Erep (Option U)) := do
  match f self.val, msg with
  | some val, _ => pure { val := some val, rep := self.rep }
  | none, none => do
      let r ← Ereport.newChecked "Got None, instead of Some"
      pure { val := none, rep := some r }
  | none, some m => do
      let r ← Ereport.newChecked m
      pure { val := none, rep := some r }

/-- Helper: folding `push_opt` over two optional trails from `empty`
collects exactly the present trails, in order, under an empty-message root. -/
theorem push_opt_fold_pair (o1 o2 : Option Ereport) :
    (Ereport.empty.push_opt o1).push_opt o2 =
      Ereport.mk "" (List.filterMap id [o1, o2]) := by
  cases o1 <;> cases o2 <;> rfl

/-- C3: `vmap` sets the value to `f v` and is the identity on the
diagnostic component. -/
theorem vmap_value_and_trail {T U : Type} (e : Erep T) (f : T → U) :
    e.vmap f = { val := f e.val, rep := e.rep } := rfl

/-- C1: `map` merges trails by folding `push_opt` over the original trail
then `f`'s trail, starting from the canonical empty trail, and always wraps
the result in `some`; in particular when both trails are absent the result
is `some` of the canonical empty trail, not `none`. -/
theorem map_merges_trails {T U : Type} (e : Erep T) (f : T → Erep U) :
    (e.map f).rep = some ((Ereport.empty.push_opt e.rep).push_opt (f e.val).rep) ∧
    (e.rep = none → (f e.val).rep = none → (e.map f).rep = some (Ereport.mk "" [])) := by
  constructor
  · rfl
  · intro h1 h2
    show some ((Ereport.empty.push_opt e.rep).push_opt (f e.val).rep) = _
    rw [h1, h2]
    rfl

/-- Witness for C1 at a concrete input with both trails absent. -/
theorem map_merges_trails_witness :
    ((Erep.mk 2 none : Erep Nat).rep = none ∧
      ((fun i => Erep.mk (i + 2) none) (2 : Nat)).rep = none) ∧
    ((Erep.mk 2 none : Erep Nat).map (fun i => Erep.mk (i + 2) none)).rep =
      some (Ereport.mk "" []) :=
  ⟨⟨rfl, rfl⟩,
    (map_merges_trails (Erep.mk 2 none) (fun i => Erep.mk (i + 2) none)).2 rfl rfl⟩

/-- C9: the trail produced by `map` is a root node with the empty message
whose children are exactly the present trails among the receiver's trail
and `f`'s result trail, in that order — attached as siblings, never nested. -/
theorem map_trail_shape {T U : Type} (e : Erep T) (f : T → Erep U) :
    (e.map f).rep = some (Ereport.mk "" (List.filterMap id [e.rep, (f e.val).rep])) := by
  show some ((Ereport.empty.push_opt e.rep).push_opt (f e.val).rep) = _
  rw [push_opt_fold_pair]

/-- C5: on `Ok`, `emap` keeps the value as `some u` and threads the
original trail through unchanged, whatever the override message is. -/
theorem emap_ok_keeps_trail {T U E : Type} (e : Erep T) (fmt : E → String)
    (f : T → Except E U) (m : Option String) (u : U)
    (h : f e.val = Except.ok u) :
    e.emap fmt f m = { val := some u, rep := e.rep } := by
  simp only [Erep.emap, Erep.unwrap_with_err]
  rw [h]

/-- Witness for C5 at a concrete successful input. -/
theorem emap_ok_keeps_trail_witness :
    ((fun i : Nat => (Except.ok (i + 1) : Except Nat Nat)) 2 = Except.ok 3) ∧
    (Erep.mk 2 (some (Ereport.new "old")) : Erep Nat).emap (fun _ => "e")
        (fun i : Nat => (Except.ok (i + 1) : Except Nat Nat)) (some "override") =
      { val := some 3, rep := some (Ereport.new "old") } :=
  ⟨rfl, emap_ok_keeps_trail (Erep.mk 2 (some (Ereport.new "old"))) (fun _ => "e")
    (fun i : Nat => (Except.ok (i + 1) : Except Nat Nat)) (some "override") 3 rfl⟩

/-- C2: on `Err`, `emap` sets the value to `none` and installs a fresh
single-node trail (no children) whose message is the override when
supplied and otherwise the formatted error; the prior trail is dropped
and is not a child of the new node. -/
theorem emap_err_replaces_trail {T U E : Type} (e : Erep T) (fmt : E → String)
    (f : T → Except E U) (m : Option String) (err : E)
    (h : f e.val = Except.error err) :
    e.emap fmt f m = { val := (none : Option U),
                       rep := some (Ereport.mk (m.getD (fmt err)) []) } := by
  simp only [Erep.emap, Erep.unwrap_with_err]
  rw [h]
  cases m <;> rfl

/-- Witness for C2 at a concrete failing input with a prior trail. -/
theorem emap_err_replaces_trail_witness :
    ((fun _ : Nat => (Except.error 7 : Except Nat Nat)) 2 = Except.error 7) ∧
    (Erep.mk 2 (some (Ereport.new "old")) : Erep Nat).emap (fun k => toString k)
        (fun _ : Nat => (Except.error 7 : Except Nat Nat)) none =
      { val := (none : Option Nat),
        rep := some (Ereport.mk ((none : Option String).getD (toString (7 : Nat))) []) } :=
  ⟨rfl, emap_err_replaces_trail (Erep.mk 2 (some (Ereport.new "old")))
    (fun k => toString k) (fun _ : Nat => (Except.error 7 : Except Nat Nat)) none 7 rfl⟩

/-- C4: `omap` keeps the value and the original trail on `some`; on `none`
it sets the value to `none` and installs a fresh single-node trail whose
message is the override when supplied and otherwise the fixed text
"Got None, instead of Some", dropping the prior trail. -/
theorem omap_cases {T U : Type} (e : Erep T) (f : T → Option U) (m : Option String) :
    (∀ u, f e.val = some u → e.omap f m = { val := some u, rep := e.rep }) ∧
    (f e.val = none →
      e.omap f m = { val := (none : Option U),
                     rep := some (Ereport.mk (m.getD "Got None, instead of Some") []) }) := by
  constructor
  · intro u h
    unfold Erep.omap
    rw [h]
  · intro h
    unfold Erep.omap
    rw [h]
    cases m <;> rfl

/-- Witness for C4 on the absent branch with an override message. -/
theorem omap_cases_witness :
    ((fun _ : Nat => (none : Option Nat)) 5 = none) ∧
    (Erep.mk 5 (some (Ereport.new "old")) : Erep Nat).omap
        (fun _ : Nat => (none : Option Nat)) (some "custom") =
      { val := (none : Option Nat),
        rep := some (Ereport.mk ((some "custom").getD "Got None, instead of Some") []) } :=
  ⟨rfl, (omap_cases (Erep.mk 5 (some (Ereport.new "old")))
    (fun _ : Nat => (none : Option Nat)) (some "custom")).2 rfl⟩

/-- C6: appending `c1` then `c2` with `push` appends both to the end of the
children sequence, in that order, never reordering existing children. -/
theorem push_push_order (t c1 c2 : Ereport) :
    (t.push c1).push c2 = Ereport.mk t.msg (t.stack ++ [c1, c2]) := by
  show Ereport.mk t.msg ((t.stack ++ [c1]) ++ [c2]) = Ereport.mk t.msg (t.stack ++ [c1, c2])
  rw [List.append_assoc]
  rfl

/-- C7: `push_opt` with a present child behaves as `push`; with an absent
child it returns the trail unchanged. -/
theorem push_opt_spec (t : Ereport) :
    (∀ c, t.push_opt (some c) = t.push c) ∧ t.push_opt none = t :=
  ⟨fun _ => rfl, rfl⟩

/-- C10: the override message is read only on the failure branch: when the
transformation succeeds, `emap` and `omap` give identical results for any
two override arguments. -/
theorem override_irrelevant_on_success {T U E : Type} (e : Erep T)
    (fmt : E → String) (g : T → Except E U) (f : T → Option U)
    (m1 m2 : Option String) (u v : U) :
    (g e.val = Except.ok u → e.emap fmt g m1 = e.emap fmt g m2) ∧
    (f e.val = some v → e.omap f m1 = e.omap f m2) := by
  constructor
  · intro h
    simp only [Erep.emap, Erep.unwrap_with_err]
    rw [h]
  · intro h
    unfold Erep.omap
    rw [h]

/-- Witness for C10 at concrete successful inputs. -/
theorem override_irrelevant_on_success_witness :
    (((fun i : Nat => (Except.ok i : Except Nat Nat)) 4 = Except.ok 4) ∧
      (Erep.mk 4 none : Erep Nat).emap (fun _ => "e")
          (fun i : Nat => (Except.ok i : Except Nat Nat)) (some "a") =
        (Erep.mk 4 none : Erep Nat).emap (fun _ => "e")
          (fun i : Nat => (Except.ok i : Except Nat Nat)) (some "b")) ∧
    (((fun i : Nat => (some i : Option Nat)) 4 = some 4) ∧
      (Erep.mk 4 none : Erep Nat).omap (fun i : Nat => (some i : Option Nat)) (some "a") =
        (Erep.mk 4 none : Erep Nat).omap (fun i : Nat => (some i : Option Nat)) (some "b")) :=
  ⟨⟨rfl, (override_irrelevant_on_success (Erep.mk 4 none) (fun _ => "e")
      (fun i : Nat => (Except.ok i : Except Nat Nat))
      (fun i : Nat => (some i : Option Nat)) (some "a") (some "b") 4 4).1 rfl⟩,
    ⟨rfl, (override_irrelevant_on_success (Erep.mk 4 none) (fun _ => "e")
      (fun i : Nat => (Except.ok i : Except Nat Nat))
      (fun i : Nat => (some i : Option Nat)) (some "a") (some "b") 4 4).2 rfl⟩⟩

/-- C8: none of the operations can themselves panic: in the
panic-instrumented semantics every operation returns `Except.ok` of the
plain operation's result, on every input. -/
theorem operations_total :
    (∀ (T U : Type) (e : Erep T) (f : T → U),
      e.vmapChecked f = Except.ok (e.vmap f)) ∧
    (∀ (T U : Type) (e : Erep T) (f : T → Erep U),
      e.mapChecked f = Except.ok (e.map f)) ∧
    (∀ (T U E : Type) (e : Erep T) (fmt : E → String)
        (f : T → Except E U) (m : Option String),
      e.emapChecked fmt f m = Except.ok (e.emap fmt f m)) ∧
    (∀ (T U : Type) (e : Erep T) (f : T → Option U) (m : Option String),
      e.omapChecked f m = Except.ok (e.omap f m)) ∧
    (∀ (T : Type) (e : Erep T),
      e.unwrap_with_errChecked = Except.ok e.unwrap_with_err) ∧
    (Ereport.emptyChecked = Except.ok Ereport.empty) ∧
    (∀ (s : String), Ereport.newChecked s = Except.ok (Ereport.new s)) ∧
    (∀ (t c : Ereport), t.pushChecked c = Except.ok (t.push c)) ∧
    (∀ (t : Ereport) (o : Option Ereport),
      t.push_optChecked o = Except.ok (t.push_opt o)) := by
  refine ⟨?_, ?_, ?_, ?_, ?_, rfl, fun _ => rfl, fun _ _ => rfl, ?_⟩
  · intro T U e f
    rfl
  · intro T U e f
    simp only [Erep.mapChecked, Erep.map, Erep.unwrap_with_errChecked, Erep.unwrap_with_err,
      List.foldlM, Ereport.push_optChecked, Ereport.push_opt,
      Ereport.pushChecked, Ereport.push, bind, Except.bind, pure, Except.pure]
    cases e.rep <;> cases (f e.val).rep <;> rfl
  · intro T U E e fmt f m
    simp only [Erep.emapChecked, Erep.emap, Erep.unwrap_with_errChecked,
      Erep.unwrap_with_err, bind, Except.bind, pure, Except.pure]
    cases f e.val <;> cases m <;> rfl
  · intro T U e f m
    simp only [Erep.omapChecked, Erep.omap, Ereport.newChecked, Ereport.new,
      bind, Except.bind, pure, Except.pure]
    cases f e.val <;> cases m <;> rfl
  · intro T e
    rfl
  · intro t o
    cases o <;> rfl
